import Mathlib

/-!
Verification of the spade event pipeline (schema-driven transformer, globber,
batcher, multee fan-out, batcher config validation, event-metadata loader).

The Go sources are embedded shallowly:

* JSON values decoded with `UseNumber` become `JVal`; a `json.Number` keeps its
  literal string, exactly as the Go decoder does.
* Go maps become functions `String -> Option _` updated pointwise; Go byte
  buffers and byte slices become `String` (one `Char` per byte).
* A Go pair `(value, error)` becomes `String × Option E` for the matching
  error inductive `E`; `none` is the nil error.
* External collaborators (the deflate compressor, the timezone formatter of
  the Go standard library, the duration parser, the value fetcher and the two
  caches) are parameters of the embedded functions; everything the repository
  itself computes is embedded concretely.
* Floating point numeric parsing (`json.Number.Float64`) is modelled with
  exact rational values; all concrete inputs used below are exactly
  representable, so the model and the float semantics agree on them.
-/

/-- A decoded JSON value as produced by the Go decoder with `UseNumber`:
numbers keep their literal text, objects and arrays are opaque here. -/
inductive JVal where
  | num (s : String)
  | str (s : String)
  | jbool (b : Bool)
  | jnull
  | composite
deriving DecidableEq, Repr

/-- Failure kinds of the reporter package carried on a WriteRequest. -/
inductive Failure where
  | None
  | SkippedColumn
  | NonTrackingEvent
  | EmptyRequest
  | UnableToParseData
  | PanickedInProcessing
deriving DecidableEq, Repr

/-- Per-column transformer errors: the sentinel errors of
transformer/redshift_types.go and the lookup package, plus a catch-all for
any other non-nil error (the default branch of the outcome switch). -/
inductive TErr where
  | tooManyRequests
  | extractingValue
  | idSet
  | badLookupValue
  | emptyLookupValue
  | localCacheHit
  | remoteCacheHit
  | fetchSuccess
  | fetchFailure
  | cacheSetFailure
  | columnNotFound
  | genericErr (msg : String)
deriving DecidableEq, Repr

/-- Errors returned by `RedshiftTransformer.transform` as a whole. -/
inductive TransformErr where
  | emptyRequest
  | notTracked
  | decodeError
  | skippedColumn
deriving DecidableEq, Repr

/-- Digit list to natural number, most significant digit first. -/
def digitsVal (l : List Char) : Nat :=
  l.foldl (fun a c => 10 * a + (c.toNat - 48)) 0

/-- strconv.ParseInt with base 10 and bitSize 64: optional sign, at least one
digit, all digits, and the value must fit in a signed 64-bit integer.
`json.Number.Int64` delegates to exactly this call. -/
def goParseInt64 (s : String) : Option Int :=
  let (sign, digits) :=
    match s.toList with
    | '+' :: rest => ((1 : Int), rest)
    | '-' :: rest => ((-1 : Int), rest)
    | l => ((1 : Int), l)
  if digits.isEmpty ∨ ¬ digits.all Char.isDigit then none
  else
    let v : Int := sign * (digitsVal digits : Int)
    if -(2 ^ 63) ≤ v ∧ v ≤ 2 ^ 63 - 1 then some v else none

/-- safeParseInt of transformer/redshift_types.go: a `json.Number` goes
through `Int64()`, a string through `strconv.ParseInt(s, 10, 64)`, anything
else is an error (modelled as `none`). -/
def safeParseInt : Option JVal → Option Int
  | some (JVal.num s) => goParseInt64 s
  | some (JVal.str s) => goParseInt64 s
  | _ => none

/-- Two lowercase hex digits of a byte, used by the `%q` model. -/
def hexByte (n : Nat) : String :=
  let digit := fun (d : Nat) =>
    if d < 10 then String.singleton (Char.ofNat (48 + d))
    else String.singleton (Char.ofNat (87 + d))
  digit (n / 16 % 16) ++ digit (n % 16)

/-- One character of Go `strconv.Quote` (the `%q` verb on strings): quote and
backslash are escaped, the standard control escapes are used, remaining
control bytes become `\xhh`, and printable characters stay verbatim. -/
def goQuoteChar (c : Char) : String :=
  if c = '\"' then "\\\""
  else if c = '\\' then "\\\\"
  else if c = Char.ofNat 7 then "\\a"
  else if c = Char.ofNat 8 then "\\b"
  else if c = Char.ofNat 12 then "\\f"
  else if c = '\n' then "\\n"
  else if c = '\r' then "\\r"
  else if c = '\t' then "\\t"
  else if c = Char.ofNat 11 then "\\v"
  else if c.toNat < 32 ∨ c.toNat = 127 then "\\x" ++ hexByte c.toNat
  else String.singleton c

/-- Go `fmt.Sprintf("%q", v)` on a string value. -/
def goQuote (s : String) : String :=
  "\"" ++ String.join (s.toList.map goQuoteChar) ++ "\""

/-- TAB-join of a list of fields: the shape of the TSV line the transformer
emits (used on the specification side of the TSV structure theorem). -/
def tsvJoin : List String → String
  | [] => ""
  | [f] => f
  | f :: fs => f ++ "\t" ++ tsvJoin fs

/-- The tail part of a TAB-join: every field preceded by one TAB. -/
def tsvTail : List String → String
  | [] => ""
  | f :: fs => "\t" ++ f ++ tsvTail fs

theorem tsvJoin_cons (f : String) (fs : List String) :
    tsvJoin (f :: fs) = f ++ tsvTail fs := by
  induction fs generalizing f with
  | nil => simp [tsvJoin, tsvTail, String.append_empty]
  | cons g gs ih =>
      simp only [tsvJoin, tsvTail, ih g, String.append_assoc]

/-- A finite map, Go style: total function into `Option`. -/
def emptyJMap : String → Option JVal := fun _ => none

/-- Pointwise update of a Go map. -/
def updateMap (m : String → Option JVal) (k : String) (v : JVal) :
    String → Option JVal :=
  fun x => if x = k then some v else m x

/-- The empty record map of the transformer output. -/
def emptyKV : String → Option String := fun _ => none

/-- Store `outboundName -> value` in the record map. -/
def updateKV (m : String → Option String) (k v : String) :
    String → Option String :=
  fun x => if x = k then some v else m x

/-- RedshiftType of transformer/redshift_types.go: a column transformer
together with the inbound name, outbound name and supporting columns of the
column spec. The transformer function itself is a parameter, exactly as the
Go struct carries a `ColumnTransformer` function value. -/
structure RedshiftType where
  transformer : List (Option JVal) → String × Option TErr
  inboundName : String
  outboundName : String
  supportingColumns : List String

/-- The argument-gathering loop of `RedshiftType.Format`: each requested
column is looked up in the event properties; a missing column aborts with
`ErrColumnNotFound` only when the column spec has no supporting columns
(mirroring the `!ok && len(r.SupportingColumns) == 0` check); otherwise the
missing value travels as a nil argument. -/
def buildArgs (props : String → Option JVal) (supportingEmpty : Bool) :
    List String → Option (List (Option JVal))
  | [] => some []
  | col :: rest =>
    let p := props col
    if p.isNone ∧ supportingEmpty then none
    else
      match buildArgs props supportingEmpty rest with
      | none => none
      | some l => some (p :: l)

/-- `RedshiftType.Format`: gather the inbound and supporting column values,
run the column transformer, and return the outbound name with the value and
error. -/
def RedshiftType.Format (r : RedshiftType) (props : String → Option JVal) :
    String × String × Option TErr :=
  match buildArgs props r.supportingColumns.isEmpty
      (r.inboundName :: r.supportingColumns) with
  | none => ("", "", some TErr.columnNotFound)
  | some args =>
    let
      res := r.transformer args
    (r.outboundName, res.1, res.2)

/-- The per-column outcome switch of `RedshiftTransformer.transform`: for a
column error it yields the list of incremented result counters and whether
the column counts as skipped (the default branch increments nothing specific
and skips). -/
def classify : Option TErr → List String × Bool
  | none => (["success"], false)
  | some TErr.tooManyRequests => (["tooManyFetchRequests"], true)
  | some TErr.extractingValue => (["invalidMapping"], true)
  | some TErr.idSet => (["success", "cache.id_set"], false)
  | some TErr.badLookupValue => (["cache.bad_lookup_value"], true)
  | some TErr.emptyLookupValue => (["cache.empty_lookup_value"], true)
  | some TErr.localCacheHit => (["success", "cache.local_cache_hit"], false)
  | some TErr.remoteCacheHit => (["success", "cache.remote_cache_hit"], false)
  | some TErr.fetchSuccess => (["success", "cache.fetch_success"], false)
  | some TErr.fetchFailure => (["cache.fetch_failure"], true)
  | some TErr.cacheSetFailure => (["success", "cache.set_failure"], false)
  | some TErr.columnNotFound => ([], true)
  | some (TErr.genericErr _) => ([], true)

/-- A parsed event as consumed by `RedshiftTransformer.Consume`. `properties`
is the raw byte payload; `decoded` is the outcome of decoding it with the Go
JSON decoder (`UseNumber` enabled) into a string-keyed map, `none` when the
decoder errors. The decoder itself is the external standard library, so its
outcome is part of the event model. `eventTime` is the literal of the
`json.Number` EventTime field; `pstart` is an abstract timestamp. -/
structure MixpanelEvent where
  event : String
  properties : String
  decoded : Option (List (String × JVal))
  uuid : String
  clientIP : String
  userAgent : String
  eventTime : String
  edgeType : String
  pstart : Nat
  failure : Failure

/-- WriteRequest of the writer package (the fields the transformer fills). -/
structure WriteRequest where
  category : String
  version : Int
  line : String
  record : String → Option String
  uuid : String
  source : String
  failure : Failure
  pstart : Nat

/-- Modelled from the spec: the schema loader behind
`GetColumnsForEvent`/`GetVersionForEvent` (the tables package is not part of
the given sources). Per the spec, looking up an event with no schema yields
the not-tracked error, modelled by `none`; the version lookup is total. -/
structure SchemaConfigLoader where
  getColumns : String → Option (List RedshiftType)
  getVersion : String → Int

/-- Turn the decoded property list into a Go map. -/
def assocToMap (props : List (String × JVal)) : String → Option JVal :=
  fun k => List.lookup k props

/-- The server-side field injection of `RedshiftTransformer.transform`:
`client_time` is set from an existing `time`, `time` is always replaced by
the server event time, `ip` and `user_agent` are filled only when absent
(and `user_agent` only when non-empty). -/
def injectServerFields (event : MixpanelEvent) (m0 : String → Option JVal) :
    String → Option JVal :=
  let m1 :=
    match m0 "time" with
    | some tv => updateMap m0 "client_time" tv
    | none => m0
  let m2 := updateMap m1 "time" (JVal.num event.eventTime)
  let m3 :=
    match m2 "ip" with
    | some _ => m2
    | none => updateMap m2 "ip" (JVal.str event.clientIP)
  match m3 "user_agent" with
  | some _ => m3
  | none => if event.userAgent = "" then m3 else updateMap m3 "user_agent" (JVal.str event.userAgent)

/-- The column loop of `RedshiftTransformer.transform`: for each column run
`Format`, classify the outcome, prepend a TAB for every index other than 0,
append the `%q`-quoted value to the TSV buffer, and store non-empty values in
the record map. Returns the TSV buffer, the record map and whether any column
was skipped (in the source the latter is the `possibleError` variable holding
`ErrSkippedColumn`). -/
def processColumnsAux (temp : String → Option JVal) :
    List RedshiftType → Nat → String → (String → Option String) → Bool →
    String × (String → Option String) × Bool
  | [], _, tsv, kv, skipped => (tsv, kv, skipped)
  | c :: rest, n, tsv, kv, skipped =>
    let r := c.Format temp
    let cls := classify r.2.2
    let skipped1 := skipped || cls.2
    let tsv1 := (if n ≠ 0 then tsv ++ "\t" else tsv) ++ goQuote r.2.1
    let kv1 := if r.2.1 ≠ "" then updateKV kv r.1 r.2.1 else kv
    processColumnsAux temp rest (n + 1) tsv1 kv1 skipped1

/-- The column loop started on an empty TSV buffer and record map. -/
def processColumns (columns : List RedshiftType) (temp : String → Option JVal) :
    String × (String → Option String) × Bool :=
  processColumnsAux temp columns 0 "" emptyKV false

/-- `RedshiftTransformer.transform`: empty event name, missing schema and
property decoding failure abort; otherwise the injected map is run through
the column loop and a skipped column surfaces as `ErrSkippedColumn` next to
the produced line and record map (statistics calls are not modelled). -/
def transform (cfg : SchemaConfigLoader) (event : MixpanelEvent) :
    String × (String → Option String) × Option TransformErr :=
  if event.event = "" then ("", emptyKV, some TransformErr.emptyRequest)
  else
    match cfg.getColumns event.event with
    | none => ("", emptyKV, some TransformErr.notTracked)
    | some columns =>
      match event.decoded with
      | none => ("", emptyKV, some TransformErr.decodeError)
      | some props =>
        let temp := injectServerFields event (assocToMap props)
        let res := processColumns columns temp
        (res.1, res.2.1, if res.2.2 then some TransformErr.skippedColumn else none)

/-- The JSON dump `json.Marshal(&nontrackedEvent&#x7b;...&#x7d;)` of a non-tracked
event; the properties travel as a raw message, so the dump is the literal
concatenation (assuming, as the marshaller checks, that the raw properties
are valid JSON). -/
def nontrackedDump (event : MixpanelEvent) : String :=
  "\x7b\"event\":" ++ goQuote event.event ++ ",\"properties\":" ++ event.properties ++ "\x7d"

/-- `RedshiftTransformer.Consume`: a prior failure short-circuits; otherwise
`transform` runs and its error decides the failure kind of the WriteRequest,
with any unexpected transform error (the default branch of the type switch)
mapped to the `EmptyRequest` failure under category Unknown. -/
def Consume (cfg : SchemaConfigLoader) (event : MixpanelEvent) : WriteRequest :=
  let version := cfg.getVersion event.event
  if event.failure ≠ Failure.None then
    { category := event.event, version := version, line := "", record := emptyKV,
      uuid := event.uuid, source := event.properties, failure := event.failure,
      pstart := event.pstart }
  else
    let res := transform cfg event
    match res.2.2 with
    | none =>
      { category := event.event, version := version, line := res.1, record := res.2.1,
        uuid := event.uuid, source := event.properties, failure := Failure.None,
        pstart := event.pstart }
    | some TransformErr.notTracked =>
      { category := event.event, version := version, line := nontrackedDump event,
        record := emptyKV, uuid := event.uuid, source := event.properties,
        failure := Failure.NonTrackingEvent, pstart := event.pstart }
    | some TransformErr.skippedColumn =>
      { category := event.event, version := version, line := res.1, record := res.2.1,
        uuid := event.uuid, source := event.properties, failure := Failure.SkippedColumn,
        pstart := event.pstart }
    | some TransformErr.emptyRequest =>
      { category := "Unknown", version := version, line := "", record := emptyKV,
        uuid := event.uuid, source := event.properties, failure := Failure.EmptyRequest,
        pstart := event.pstart }
    | some TransformErr.decodeError =>
      { category := "Unknown", version := version, line := "", record := emptyKV,
        uuid := event.uuid, source := event.properties, failure := Failure.EmptyRequest,
        pstart := event.pstart }

/-- Truncation toward zero of an integer fraction `a / b` (`b` a positive
denominator), matching the Go conversion `int64(f)` of a float. -/
def intTruncDiv (a : Int) (b : Nat) : Int :=
  if a < 0 then -(((-a).toNat / b : Nat) : Int) else ((a.toNat / b : Nat) : Int)

/-- Truncation toward zero of a rational, matching Go `math.Trunc`. -/
def ratTrunc (q : ℚ) : Int :=
  intTruncDiv q.num q.den

/-- The fractional nanoseconds `(i - seconds) * float64(time.Second)` of
genUnixTimeFormat, truncated by the `int64` conversion; computed exactly on
the rational `q` with `seconds = ratTrunc q`. -/
def fracNanos (q : ℚ) (seconds : Int) : Int :=
  intTruncDiv ((q.num - seconds * (q.den : Int)) * 1000000000) q.den

/-- Exact-value model of `strconv.ParseFloat` on the decimal forms produced
by the JSON decoder: optional sign, digits with an optional fraction part,
optional decimal exponent. Returns the exact rational value (the float64
rounding step of the real ParseFloat is not modelled); hexadecimal, Inf and
NaN forms, which the JSON decoder never produces, are rejected. -/
def goParseFloat (s : String) : Option ℚ :=
  let (sign, rest) :=
    match s.toList with
    | '+' :: r => ((1 : Int), r)
    | '-' :: r => ((-1 : Int), r)
    | r => ((1 : Int), r)
  let (mant, expPart) := rest.span (fun c => c ≠ 'e' ∧ c ≠ 'E')
  let expVal : Option Int :=
    match expPart with
    | [] => some 0
    | _ :: t =>
      let (esign, edigits) :=
        match t with
        | '+' :: r => ((1 : Int), r)
        | '-' :: r => ((-1 : Int), r)
        | r => ((1 : Int), r)
      if edigits.isEmpty ∨ ¬ edigits.all Char.isDigit then none
      else some (esign * (digitsVal edigits : Int))
  let (ip, dotFrac) := mant.span (fun c => c ≠ '.')
  let frac : Option (List Char) :=
    match dotFrac with
    | [] => some []
    | _ :: f => if f.all Char.isDigit then some f else none
  match expVal, frac with
  | some e, some f =>
    if ¬ ip.all Char.isDigit ∨ (ip.isEmpty ∧ f.isEmpty) then none
    else
      let m : Int := sign * (digitsVal (ip ++ f) : Int)
      if 0 ≤ e then some (mkRat (m * ((10 ^ e.toNat : Nat) : Int)) (10 ^ f.length))
      else some (mkRat m (10 ^ f.length * 10 ^ (-e).toNat))
  | _, _ => none

/-- Error shapes of the unix time formatter: the argument is not a
`json.Number` (the `genError` of the type assertion), the `Float64` call
errored, or the truncated seconds fall outside the allowed window (again a
`genError`). -/
inductive TimeErr where
  | notNumber
  | floatParse
  | outOfRange
deriving DecidableEq, Repr

/-- timeLowerBound of transformer/redshift_types.go. -/
def timeLowerBound : Int := 1000000000

/-- fiveDigitYearCutoff of transformer/redshift_types.go. -/
def fiveDigitYearCutoff : Int := 13140000000

/-- genUnixTimeFormat of transformer/redshift_types.go on its single
argument. `formatInTz seconds nanos` stands for the external standard
library call `time.Unix(seconds, nanos).In(tz).Format("2006-01-02
15:04:05.999")`; everything else mirrors the source: the argument must be a
`json.Number`, its value is truncated to whole seconds, and seconds below
`timeLowerBound` or above `fiveDigitYearCutoff` are rejected. -/
def genUnixTimeFormat (formatInTz : Int → Int → String) (arg : Option JVal) :
    String × Option TimeErr :=
  match arg with
  | some (JVal.num s) =>
    match goParseFloat s with
    | none => ("", some TimeErr.floatParse)
    | some q =>
      let seconds := ratTrunc q
      let nanos := fracNanos q seconds
      if seconds < timeLowerBound ∨ seconds > fiveDigitYearCutoff then
        ("", some TimeErr.outOfRange)
      else (formatInTz seconds nanos, none)
  | _ => ("", some TimeErr.notNumber)

/-- Go strings.TrimSpace (whitespace trimmed from both ends). -/
def goTrimSpace (s : String) : String :=
  String.mk (((s.toList.dropWhile Char.isWhitespace).reverse.dropWhile
    Char.isWhitespace).reverse)

/-- Result of `ValueFetcher.FetchInt64` (the lookup package is external):
either a value or one of the error classes the transformer distinguishes
(`ErrExtractingValue`, `ErrTooManyRequests`, anything else). -/
inductive FetchRes where
  | ok (v : Int)
  | errExtracting
  | errTooMany
  | errOther
deriving DecidableEq, Repr

/-- A cache (local or remote) as an association list; `Get` is `cacheGet`,
a successful `Set` prepends. -/
def cacheGet (cache : List (String × String)) (k : String) : Option String :=
  List.lookup k cache

/-- A successful cache `Set`. -/
def cacheSet (cache : List (String × String)) (k v : String) :
    List (String × String) :=
  (k, v) :: cache

/-- genLoginToIDTransformer of transformer/redshift_types.go (wrapped by
safeColumnTransformer with arity 2). State is passed explicitly: the result
is the (value, error) pair followed by the local and remote cache contents
after the call. `fetch` is the external fetcher keyed by login;
`remoteSetOk login v` tells whether the external remote cache accepts the
write (the local in-memory cache always does; its error is discarded by the
source anyway). -/
def loginToIDTransformer (localCache remoteCache : List (String × String))
    (fetch : String → FetchRes) (remoteSetOk : String → String → Bool)
    (args : List (Option JVal)) :
    (String × Option TErr) × List (String × String) × List (String × String) :=
  match args with
  | [a0, a1] =>
    match safeParseInt a0 with
    | some localID => ((toString localID, some TErr.idSet), localCache, remoteCache)
    | none =>
      match a1 with
      | some (JVal.str rawLogin) =>
        let login := goTrimSpace rawLogin
        if login.length = 0 then
          (("", some TErr.emptyLookupValue), localCache, remoteCache)
        else
          match cacheGet localCache login with
          | some cachedID => ((cachedID, some TErr.localCacheHit), localCache, remoteCache)
          | none =>
            match cacheGet remoteCache login with
            | some cachedID =>
              ((cachedID, some TErr.remoteCacheHit), cacheSet localCache login cachedID,
                remoteCache)
            | none =>
              match fetch login with
              | FetchRes.ok v =>
                let fetchedID := toString v
                let local1 := cacheSet localCache login fetchedID
                if remoteSetOk login fetchedID then
                  ((fetchedID, some TErr.fetchSuccess), local1,
                    cacheSet remoteCache login fetchedID)
                else ((fetchedID, some TErr.cacheSetFailure), local1, remoteCache)
              | FetchRes.errExtracting =>
                let local1 := cacheSet localCache login ""
                let remote1 :=
                  if remoteSetOk login "" then cacheSet remoteCache login "" else remoteCache
                (("", some TErr.fetchFailure), local1, remote1)
              | FetchRes.errTooMany =>
                (("", some TErr.fetchFailure), localCache, remoteCache)
              | FetchRes.errOther =>
                (("", some TErr.fetchFailure), localCache, remoteCache)
      | _ => (("", some TErr.badLookupValue), localCache, remoteCache)
  | _ =>
    (("", some (TErr.genericErr ("Provide " ++ toString args.length ++
      " arguments instead of the required amount of 2"))), localCache, remoteCache)

/-- Error values of `DynamicLoader.GetMetadataValueByType`: the typed
`transformer.ErrInvalidMetadataType` struct, or a plain untyped
`errors.New` error. -/
inductive MetaErr where
  | invalidMetadataType (what : String)
  | errorsNew (msg : String)
deriving DecidableEq, Repr

/-- The metadata snapshot: eventName to metadataType to MetadataValue. -/
def MetaSnapshot := List (String × List (String × String))

/-- GetMetadataValueByType of the event-metadata DynamicLoader: a metadata
type other than `comment` or `edge_type` yields the typed invalid-type error
(whose message interpolates the event name); otherwise the nested lookup
either returns the stored value or the plain error `Not found`. -/
def GetMetadataValueByType (snapshot : MetaSnapshot) (eventName metadataType : String) :
    String × Option MetaErr :=
  if metadataType ≠ "comment" ∧ metadataType ≠ "edge_type" then
    ("", some (MetaErr.invalidMetadataType (eventName ++ " is not being tracked")))
  else
    match List.lookup eventName snapshot with
    | some eventMetadata =>
      match List.lookup metadataType eventMetadata with
      | some value => (value, none)
      | none => ("", some (MetaErr.errorsNew "Not found"))
    | none => ("", some (MetaErr.errorsNew "Not found"))

/-- The JSON array body `e1 "," e2 "," ... "," eN` built by a Globber. -/
def commaJoin : List String → String
  | [] => ""
  | [e] => e
  | e :: es => e ++ "," ++ commaJoin es

/-- Tail form of the array body: every entry preceded by one comma. -/
def commaTail : List String → String
  | [] => ""
  | e :: es => "," ++ e ++ commaTail es

theorem commaJoin_cons (e : String) (es : List String) :
    commaJoin (e :: es) = e ++ commaTail es := by
  induction es generalizing e with
  | nil => simp [commaJoin, commaTail, String.append_empty]
  | cons g gs ih => simp only [commaJoin, commaTail, ih g, String.append_assoc]

/-- Globber.complete: an empty pending buffer is left alone; otherwise `]` is
appended, the buffer is compressed, a single version byte 1 is prepended, the
result is handed to the completor (collected in the returned list) and the
buffer is reset. `compress` is the external deflate writer. -/
def globComplete (compress : String → String) (pending : String) :
    String × List String :=
  if pending.length = 0 then (pending, [])
  else ("", [String.singleton (Char.ofNat 1) ++ compress (pending ++ "]")])

/-- Globber.add: when the entry would push the buffer past MaxSize the
current glob is completed first; a fresh buffer is opened with `[`, a
non-empty one is extended with `,`; then the entry bytes are appended. -/
def globAdd (compress : String → String) (maxSize : Nat) (pending : String)
    (entry : String) : String × List String :=
  let s := entry.length + pending.length
  let step := if s > maxSize then globComplete compress pending else (pending, [])
  if step.1.length = 0 then (step.1 ++ "[" ++ entry, step.2)
  else (step.1 ++ "," ++ entry, step.2)

/-- A sequence of Globber.add calls, collecting every completed glob. -/
def globRun (compress : String → String) (maxSize : Nat) :
    List String → String → String × List String
  | [], pending => (pending, [])
  | e :: es, pending =>
    let st := globAdd compress maxSize pending e
    let rest := globRun compress maxSize es st.1
    (rest.1, st.2 ++ rest.2)

/-- Submit the entries in order, then Close (the worker drains the channel
and completes the final glob on exit); returns every completed glob in
emission order. -/
def globberRun (compress : String → String) (maxSize : Nat)
    (entries : List String) : List String :=
  let r := globRun compress maxSize entries ""
  r.2 ++ (globComplete compress r.1).2

/-- An event seen by the Batcher/Globber worker loop: a submitted entry or a
timer expiry. -/
inductive AggOp where
  | submit (entry : String)
  | fire
deriving Repr

/-- The Globber worker loop over a sequence of submissions and timer
expiries. -/
def globOpsRun (compress : String → String) (maxSize : Nat) :
    List AggOp → String → String × List String
  | [], pending => (pending, [])
  | AggOp.submit e :: ops, pending =>
    let st := globAdd compress maxSize pending e
    let rest := globOpsRun compress maxSize ops st.1
    (rest.1, st.2 ++ rest.2)
  | AggOp.fire :: ops, pending =>
    let st := globComplete compress pending
    let rest := globOpsRun compress maxSize ops st.1
    (rest.1, st.2 ++ rest.2)

/-- Worker loop followed by the Close flush: every glob the completor ever
receives. -/
def globberOpsEmitted (compress : String → String) (maxSize : Nat)
    (ops : List AggOp) : List String :=
  let r := globOpsRun compress maxSize ops ""
  r.2 ++ (globComplete compress r.1).2

/-- Batcher.complete: a non-empty pending batch is handed to the completor
and reset; an empty one is left alone. The pending state is the entry list
plus its total byte size. -/
def batchComplete (p : List String × Nat) :
    (List String × Nat) × List (List String) :=
  if p.1.isEmpty then (p, []) else (([], 0), [p.1])

/-- Batcher.add: complete first when the entry would push the batch past
MaxSize, then append the entry and update the size. -/
def batchAdd (maxSize : Nat) (p : List String × Nat) (e : String) :
    (List String × Nat) × List (List String) :=
  let s := e.length + p.2
  let step := if s > maxSize then batchComplete p else (p, [])
  ((step.1.1 ++ [e], step.1.2 + e.length), step.2)

/-- The Batcher worker loop over submissions and timer expiries. -/
def batchOpsRun (maxSize : Nat) :
    List AggOp → (List String × Nat) → (List String × Nat) × List (List String)
  | [], p => (p, [])
  | AggOp.submit e :: ops, p =>
    let st := batchAdd maxSize p e
    let rest := batchOpsRun maxSize ops st.1
    (rest.1, st.2 ++ rest.2)
  | AggOp.fire :: ops, p =>
    let st := batchComplete p
    let rest := batchOpsRun maxSize ops st.1
    (rest.1, st.2 ++ rest.2)

/-- Batcher worker loop followed by the Close flush: every batch the
completor ever receives. -/
def batcherOpsEmitted (maxSize : Nat) (ops : List AggOp) : List (List String) :=
  let r := batchOpsRun maxSize ops ([], 0)
  r.2 ++ (batchComplete r.1).2

/-- Multee.Rotate over the target map, each target represented by its key
and the (done, error) pair its Rotate call returns. The result is the
`allDone` accumulator together with the keys of every target whose Rotate
was invoked: an error flips `allDone` to false and the loop continues. -/
def multeeRotateAux : List (String × Bool × Option String) → Bool → Bool × List String
  | [], allDone => (allDone, [])
  | (k, done, err) :: rest, allDone =>
    let allDone1 :=
      match err with
      | some _ => false
      | none => allDone && done
    let r := multeeRotateAux rest allDone1
    (r.1, k :: r.2)

/-- Multee.Rotate started with `allDone = true`. -/
def multeeRotate (targets : List (String × Bool × Option String)) : Bool × List String :=
  multeeRotateAux targets true

/-- Config of batcher/batcher.go. -/
structure BatcherConfig where
  MaxSize : Int
  MaxAge : String
  BufferLength : Int

/-- Config.Validate of batcher/batcher.go. `parseDuration` is the external
`time.ParseDuration`, returning the duration in nanoseconds or failing. The
source checks, in order: MaxAge parses, the parsed MaxAge is positive,
MaxSize is positive, and BufferLength is compared with `== 0` only. A
non-nil error is modelled as `some message`. -/
def BatcherConfig.Validate (parseDuration : String → Option Int)
    (c : BatcherConfig) : Option String :=
  match parseDuration c.MaxAge with
  | none => some "time: invalid duration"
  | some maxAge =>
    if maxAge ≤ 0 then some "MaxAge must be a positive value"
    else if c.MaxSize ≤ 0 then some "MaxSize must be a positive value"
    else if c.BufferLength = 0 then some "BufferLength must be a positive value"
    else none

/-- Every target key is visited by the Rotate loop and the accumulator comes
out true exactly when it went in true and every visited target returned
(true, nil). -/
theorem multeeRotateAux_spec (targets : List (String × Bool × Option String)) :
    ∀ b, (multeeRotateAux targets b).2 = targets.map (fun t => t.1) ∧
      ((multeeRotateAux targets b).1 = true ↔
        (b = true ∧ ∀ t ∈ targets, t.2 = (true, none))) := by
  induction targets with
  | nil => intro b; simp [multeeRotateAux]
  | cons t rest ih =>
      intro b
      obtain ⟨k, done, err⟩ := t
      cases err with
      | none =>
          simp only [multeeRotateAux, List.map_cons, List.mem_cons]
          constructor
          · simp [(ih (b && done)).1]
          · rw [(ih (b && done)).2]
            cases b <;> cases done <;> simp
      | some msg =>
          simp only [multeeRotateAux, List.map_cons, List.mem_cons]
          constructor
          · simp [(ih false).1]
          · rw [(ih false).2]
            simp

/-- Claim C7: Multee.Rotate invokes Rotate on every writer in the target map
even when some of them error, and its boolean result is true exactly when
every single target returned done = true with a nil error. Each target is
modelled by its key and the (done, error) pair its Rotate call returns; the
second component of `multeeRotate` lists the keys whose Rotate ran. -/
theorem multee_rotate_characterization (targets : List (String × Bool × Option String)) :
    (multeeRotate targets).2 = targets.map (fun t => t.1) ∧
    ((multeeRotate targets).1 = true ↔ ∀ t ∈ targets, t.2 = (true, none)) := by
  have h := multeeRotateAux_spec targets true
  exact ⟨h.1, by rw [multeeRotate, h.2]; simp⟩

/-- Witness for C7 at a concrete target map: with one erroring target every
sibling is still rotated and the result is false; with a single healthy
target the result is true. -/
theorem multee_rotate_characterization_witness :
    (multeeRotate [("a", true, none), ("b", true, some "boom"), ("c", false, none)]).2
      = ["a", "b", "c"] ∧
    (multeeRotate [("ok", true, none)]).1 = true := by
  refine ⟨(multee_rotate_characterization _).1, ?_⟩
  exact (multee_rotate_characterization [("ok", true, none)]).2.mpr (by decide)

/-- Claim C10: on every path of `RedshiftTransformer.Consume` (prior failure,
success, non-tracked event, skipped column, and the default error branch) the
returned WriteRequest carries the UUID of the event, the raw event properties
as Source, and the Pstart of the event. A WriteRequest is always returned
(the embedding is a total function). -/
theorem consume_preserves_identity (cfg : SchemaConfigLoader) (event : MixpanelEvent) :
    (Consume cfg event).uuid = event.uuid ∧
    (Consume cfg event).source = event.properties ∧
    (Consume cfg event).pstart = event.pstart := by
  unfold Consume
  split
  · exact ⟨rfl, rfl, rfl⟩
  · dsimp only
    cases (transform cfg event).2.2 with
    | none => exact ⟨rfl, rfl, rfl⟩
    | some e => cases e <;> exact ⟨rfl, rfl, rfl⟩

/-- Claim C9 (amended): GetMetadataValueByType checks the metadata type
first: any type other than comment or edge_type yields the typed
invalid-type error (even when a row for that type is stored); for the two
valid types the nested snapshot lookup either returns the stored value or
the plain untyped error created by `errors.New("Not found")` - not a typed
not-found failure. -/
theorem getMetadataValueByType_characterization (snapshot : MetaSnapshot)
    (eventName metadataType : String) :
    GetMetadataValueByType snapshot eventName metadataType =
      if metadataType ≠ "comment" ∧ metadataType ≠ "edge_type" then
        ("", some (MetaErr.invalidMetadataType (eventName ++ " is not being tracked")))
      else
        match (List.lookup eventName snapshot).bind (fun m => List.lookup metadataType m) with
        | some value => (value, none)
        | none => ("", some (MetaErr.errorsNew "Not found")) := by
  unfold GetMetadataValueByType
  split
  · rfl
  · cases h1 : List.lookup eventName snapshot with
    | none => simp [h1]
    | some eventMetadata =>
        cases h2 : List.lookup metadataType eventMetadata with
        | none => simp [h1, h2]
        | some value => simp [h1, h2]

/-- Counterexample for C9 as stated: for an absent event the failure is the
generic untyped error value with message `Not found` (the same plain
`errors.New` shape used for arbitrary errors), not a typed not-found
failure; the only typed error this function ever returns is
`ErrInvalidMetadataType`. -/
theorem getMetadataValueByType_untyped_not_found :
    GetMetadataValueByType [] "someEvent" "comment"
      = ("", some (MetaErr.errorsNew "Not found")) ∧
    GetMetadataValueByType [("someEvent", [("comment", "hi")])] "someEvent" "comment"
      = ("hi", none) := by
  constructor <;> rfl

/-- A concrete stand-in for `time.ParseDuration` that parses only `1s`. -/
def parseDur1s : String → Option Int :=
  fun s => if s = "1s" then some ((1000000000 : Int)) else none

/-- Claim C8 (failing input): the batcher Config.Validate accepts
BufferLength = -1 (the source compares BufferLength with `== 0` only even
though its own error message demands a positive value), with MaxAge parsing
to a positive duration and MaxSize positive, so the claimed rejection of
every non-positive BufferLength is violated by the code. -/
theorem batcherValidate_accepts_negative_buffer :
    BatcherConfig.Validate parseDur1s
      { MaxSize := 1, MaxAge := "1s", BufferLength := -1 } = none ∧
    ({ MaxSize := 1, MaxAge := "1s", BufferLength := -1 } : BatcherConfig).BufferLength < 0 ∧
    parseDur1s "1s" = some 1000000000 ∧ (0 : Int) < 1000000000 := by
  refine ⟨rfl, by decide, rfl, by decide⟩

/-- With no prior failure the Consume failure kind is a direct image of the
transform error. -/
theorem consume_failure_eq (cfg : SchemaConfigLoader) (event : MixpanelEvent)
    (hfail : event.failure = Failure.None) :
    (Consume cfg event).failure =
      match (transform cfg event).2.2 with
      | none => Failure.None
      | some TransformErr.notTracked => Failure.NonTrackingEvent
      | some TransformErr.skippedColumn => Failure.SkippedColumn
      | some TransformErr.emptyRequest => Failure.EmptyRequest
      | some TransformErr.decodeError => Failure.EmptyRequest := by
  unfold Consume
  rw [hfail, if_neg (fun h => h rfl)]
  dsimp only
  cases (transform cfg event).2.2 with
  | none => rfl
  | some e => cases e <;> rfl

/-- An empty event name short-circuits transform with ErrEmptyRequest. -/
theorem transform_empty_name (cfg : SchemaConfigLoader) (event : MixpanelEvent)
    (hname : event.event = "") :
    transform cfg event = ("", emptyKV, some TransformErr.emptyRequest) := by
  unfold transform
  rw [if_pos hname]

/-- For a non-empty event name whose properties decode, the transform error
can only be not-tracked, skipped-column, or absent. -/
theorem transform_err_cases (cfg : SchemaConfigLoader) (event : MixpanelEvent)
    (props : List (String × JVal)) (hdec : event.decoded = some props)
    (hname : event.event ≠ "") :
    (transform cfg event).2.2 = some TransformErr.notTracked ∨
    (transform cfg event).2.2 = some TransformErr.skippedColumn ∨
    (transform cfg event).2.2 = none := by
  unfold transform
  rw [if_neg hname]
  cases cfg.getColumns event.event with
  | none => exact Or.inl rfl
  | some columns =>
      rw [hdec]
      dsimp only
      cases (processColumns columns (injectServerFields event (assocToMap props))).2.2
      · exact Or.inr (Or.inr rfl)
      · exact Or.inr (Or.inl rfl)

/-- Claim C4 (amended): for an event reaching Consume with no prior failure
and properties that decode as a JSON object, the WriteRequest carries the
EmptyRequest failure exactly when the event name is empty. (Without the
decoding premise the claim fails: a property-decoding error falls into the
default branch of the Consume type switch, which also emits EmptyRequest.) -/
theorem consume_emptyRequest_iff (cfg : SchemaConfigLoader) (event : MixpanelEvent)
    (props : List (String × JVal))
    (hfail : event.failure = Failure.None)
    (hdec : event.decoded = some props) :
    (Consume cfg event).failure = Failure.EmptyRequest ↔ event.event = "" := by
  constructor
  · intro h
    by_contra hname
    rw [consume_failure_eq cfg event hfail] at h
    rcases transform_err_cases cfg event props hdec hname with he | he | he <;>
      rw [he] at h <;> exact Failure.noConfusion h
  · intro hname
    rw [consume_failure_eq cfg event hfail, transform_empty_name cfg event hname]

/-- Schema loader with a schema only for the login event (no columns needed
for the failure-kind claims). -/
def loaderLogin : SchemaConfigLoader :=
  { getColumns := fun e => if e = "login" then some [] else none,
    getVersion := fun _ => 42 }

/-- A tracked event with a non-empty name whose properties do not decode. -/
def badDecodeEvent : MixpanelEvent :=
  { event := "login", properties := "not json", decoded := none, uuid := "uuid1",
    clientIP := "10.1.40.26", userAgent := "", eventTime := "1382033155",
    edgeType := "internal", pstart := 0, failure := Failure.None }

/-- An event with an empty name and decodable (empty) properties. -/
def emptyNameEvent : MixpanelEvent :=
  { event := "", properties := "\x7b\x7d", decoded := some [], uuid := "uuid2",
    clientIP := "10.1.40.26", userAgent := "", eventTime := "1382033155",
    edgeType := "internal", pstart := 0, failure := Failure.None }

/-- Counterexample for C4 as stated: an event named `login` (non-empty) with
no prior failure whose properties fail to decode still yields a WriteRequest
with the EmptyRequest failure, via the default branch of the type switch in
Consume. -/
theorem consume_emptyRequest_nonempty_name_counterexample :
    (Consume loaderLogin badDecodeEvent).failure = Failure.EmptyRequest ∧
    badDecodeEvent.event = "login" ∧ badDecodeEvent.failure = Failure.None := by
  exact ⟨rfl, rfl, rfl⟩

/-- Witness for C4: the amended equivalence applied to a concrete event with
an empty name, no prior failure and decodable properties. -/
theorem consume_emptyRequest_iff_witness :
    (Consume loaderLogin emptyNameEvent).failure = Failure.EmptyRequest :=
  (consume_emptyRequest_iff loaderLogin emptyNameEvent [] rfl rfl).mpr rfl

/-- When Format returns a non-empty value, the returned key is the outbound
name (the empty-key path only happens on the column-not-found error, whose
value is empty). -/
theorem Format_fst_of_val_ne (c : RedshiftType) (props : String → Option JVal)
    (h : ¬ (c.Format props).2.1 = "") :
    (c.Format props).1 = c.outboundName := by
  rcases hb : buildArgs props c.supportingColumns.isEmpty
      (c.inboundName :: c.supportingColumns) with _ | args
  · exfalso
    apply h
    unfold RedshiftType.Format
    rw [hb]
  · unfold RedshiftType.Format
    rw [hb]

/-- The TSV accumulator of the column loop: from a non-zero index on, the
loop appends exactly one TAB and one quoted field per column. -/
theorem processColumnsAux_tsv (temp : String → Option JVal) :
    ∀ (cs : List RedshiftType) (n : Nat) (tsv : String) (kv : String → Option String)
      (sk : Bool), n ≠ 0 →
      (processColumnsAux temp cs n tsv kv sk).1
        = tsv ++ tsvTail (cs.map (fun c => goQuote (c.Format temp).2.1)) := by
  intro cs
  induction cs with
  | nil =>
      intro n tsv kv sk hn
      simp [processColumnsAux, tsvTail, String.append_empty]
  | cons c rest ih =>
      intro n tsv kv sk hn
      unfold processColumnsAux
      dsimp only
      rw [if_pos hn, ih (n + 1) _ _ _ (Nat.succ_ne_zero n)]
      simp [tsvTail, String.append_assoc]

/-- The TSV line of the column loop is the TAB-join of the quoted formatter
outputs, one field per column, in schema order. -/
theorem processColumns_tsv (columns : List RedshiftType) (temp : String → Option JVal) :
    (processColumns columns temp).1
      = tsvJoin (columns.map (fun c => goQuote (c.Format temp).2.1)) := by
  cases columns with
  | nil => rfl
  | cons c rest =>
      unfold processColumns processColumnsAux
      dsimp only
      rw [if_neg (fun h => h rfl), processColumnsAux_tsv temp rest 1 _ _ _ one_ne_zero,
        List.map_cons, tsvJoin_cons]
      simp [String.empty_append]

/-- Keys not among the outbound names of the remaining columns are never
written by the column loop. -/
theorem processColumnsAux_kv_stable (temp : String → Option JVal) :
    ∀ (cs : List RedshiftType) (n : Nat) (tsv : String) (kv : String → Option String)
      (sk : Bool) (k : String),
      (∀ c ∈ cs, c.outboundName ≠ k) →
      (processColumnsAux temp cs n tsv kv sk).2.1 k = kv k := by
  intro cs
  induction cs with
  | nil => intros; rfl
  | cons c rest ih =>
      intro n tsv kv sk k hk
      unfold processColumnsAux
      dsimp only
      rw [ih _ _ _ _ k (fun c2 h2 => hk c2 (List.mem_cons_of_mem _ h2))]
      by_cases hv : (c.Format temp).2.1 = ""
      · rw [if_neg (fun hcon => hcon hv)]
      · rw [if_pos hv]
        simp only [updateKV, Format_fst_of_val_ne c temp hv]
        rw [if_neg (fun he => hk c (List.mem_cons_self c rest) he.symm)]

/-- Under pairwise-distinct outbound names, the record map at the outbound
name of a column of the loop holds its formatted value when that value is
non-empty and is untouched otherwise. -/
theorem processColumnsAux_kv_mem (temp : String → Option JVal) :
    ∀ (cs : List RedshiftType) (n : Nat) (tsv : String) (kv : String → Option String)
      (sk : Bool) (c : RedshiftType), c ∈ cs →
      (cs.map (fun x => x.outboundName)).Nodup →
      (processColumnsAux temp cs n tsv kv sk).2.1 c.outboundName =
        if ¬ (c.Format temp).2.1 = "" then some ((c.Format temp).2.1)
        else kv c.outboundName := by
  intro cs
  induction cs with
  | nil =>
      intro n tsv kv sk c hc
      exact absurd hc (List.not_mem_nil c)
  | cons c0 rest ih =>
      intro n tsv kv sk c hc hnd
      have hnotin : c0.outboundName ∉ rest.map (fun x => x.outboundName) :=
        (List.nodup_cons.mp hnd).1
      rcases List.mem_cons.mp hc with rfl | hmem
      · unfold processColumnsAux
        dsimp only
        rw [processColumnsAux_kv_stable temp rest _ _ _ _ _
          (fun c2 h2 he => hnotin (List.mem_map.mpr ⟨c2, h2, he⟩))]
        by_cases hv : (c.Format temp).2.1 = ""
        · have hno : ¬ ((c.Format temp).2.1 ≠ "") := fun hcon => hcon hv
          rw [if_neg hno, if_neg hno]
        · rw [if_pos hv, if_pos hv]
          simp only [updateKV, Format_fst_of_val_ne c temp hv]
          simp
      · have hne : ¬ (c.outboundName = c0.outboundName) :=
          fun he => hnotin (List.mem_map.mpr ⟨c, hmem, he⟩)
        unfold processColumnsAux
        dsimp only
        by_cases hv0 : (c0.Format temp).2.1 = ""
        · have hno : ¬ ((c0.Format temp).2.1 ≠ "") := fun hcon => hcon hv0
          rw [if_neg hno]
          exact ih _ _ _ _ c hmem (List.nodup_cons.mp hnd).2
        · rw [if_pos hv0, ih _ _ _ _ c hmem (List.nodup_cons.mp hnd).2]
          by_cases hv : (c.Format temp).2.1 = ""
          · have hno : ¬ ((c.Format temp).2.1 ≠ "") := fun hcon => hcon hv
            rw [if_neg hno, if_neg hno]
            simp only [updateKV, Format_fst_of_val_ne c0 temp hv0]
            rw [if_neg hne]
          · rw [if_pos hv, if_pos hv]

/-- Claim C1 (amended): for a tracked event with a non-empty name, decodable
properties, and a schema whose outbound column names are pairwise distinct,
the TSV line of transform is exactly one quoted field per column spec in
schema order, fields separated by one TAB, each field being the Go
`%q`-quoting of the formatter output; a column with a non-empty formatted
value appears in the record map under its outbound name, and a column with
an empty formatted value is present in the TSV as the empty quoted field but
absent from the record map. (Without the distinctness premise the claim
fails: with a repeated outbound name the map keeps only the last non-empty
value.) -/
theorem transform_tsv_and_record_structure (cfg : SchemaConfigLoader)
    (event : MixpanelEvent) (columns : List RedshiftType)
    (props : List (String × JVal))
    (hname : ¬ event.event = "")
    (hcols : cfg.getColumns event.event = some columns)
    (hdec : event.decoded = some props)
    (hnodup : (columns.map (fun c => c.outboundName)).Nodup) :
    (transform cfg event).1
      = tsvJoin (columns.map (fun c =>
          goQuote ((c.Format (injectServerFields event (assocToMap props))).2.1))) ∧
    ∀ c ∈ columns,
      (¬ ((c.Format (injectServerFields event (assocToMap props))).2.1 = "") →
        (transform cfg event).2.1 c.outboundName
          = some ((c.Format (injectServerFields event (assocToMap props))).2.1)) ∧
      (((c.Format (injectServerFields event (assocToMap props))).2.1 = "") →
        (transform cfg event).2.1 c.outboundName = none) := by
  have htr1 : (transform cfg event).1
      = (processColumns columns (injectServerFields event (assocToMap props))).1 := by
    unfold transform
    rw [if_neg hname, hcols, hdec]
  have htr2 : (transform cfg event).2.1
      = (processColumns columns (injectServerFields event (assocToMap props))).2.1 := by
    unfold transform
    rw [if_neg hname, hcols, hdec]
  refine ⟨htr1.trans (processColumns_tsv columns _), ?_⟩
  intro c hc
  have hmem := processColumnsAux_kv_mem (injectServerFields event (assocToMap props))
    columns 0 "" emptyKV false c hc hnodup
  constructor
  · intro hv
    rw [htr2]
    unfold processColumns
    rw [hmem, if_pos hv]
  · intro hv
    rw [htr2]
    unfold processColumns
    rw [hmem, if_neg (fun hcon => hcon hv)]
    rfl

/-- A column formatting to a constant non-empty value. -/
def colA : RedshiftType :=
  { transformer := fun _ => ("a", none), inboundName := "x",
    outboundName := "outA", supportingColumns := [] }

/-- A column formatting to the empty value. -/
def colB : RedshiftType :=
  { transformer := fun _ => ("", none), inboundName := "x",
    outboundName := "outB", supportingColumns := [] }

/-- Loader serving the two-column schema for event `ev`. -/
def cfgW : SchemaConfigLoader :=
  { getColumns := fun e => if e = "ev" then some [colA, colB] else none,
    getVersion := fun _ => 1 }

/-- A decodable event for the schema of `cfgW`. -/
def eventW : MixpanelEvent :=
  { event := "ev", properties := "\x7b\"x\":\"z\"\x7d", decoded := some [("x", JVal.str "z")],
    uuid := "u1", clientIP := "", userAgent := "", eventTime := "7",
    edgeType := "internal", pstart := 0, failure := Failure.None }

/-- Witness for C1 at a concrete schema and event: the line is the two
quoted fields TAB-joined, the non-empty value is in the record map, the
empty value is not. -/
theorem transform_tsv_and_record_structure_witness :
    (transform cfgW eventW).1 = tsvJoin [goQuote "a", goQuote ""] ∧
    (transform cfgW eventW).2.1 "outA" = some "a" ∧
    (transform cfgW eventW).2.1 "outB" = none := by
  have h := transform_tsv_and_record_structure cfgW eventW [colA, colB]
    [("x", JVal.str "z")] (by decide) rfl rfl (by decide)
  refine ⟨h.1, ?_, ?_⟩
  · exact (h.2 colA (List.mem_cons_self _ _)).1 (by decide)
  · exact (h.2 colB (List.mem_cons_of_mem _ (List.mem_cons_self _ _))).2 rfl

/-- First column writing outbound name `dup`. -/
def colDupA : RedshiftType :=
  { transformer := fun _ => ("a", none), inboundName := "x",
    outboundName := "dup", supportingColumns := [] }

/-- Second column writing the same outbound name `dup`. -/
def colDupB : RedshiftType :=
  { transformer := fun _ => ("b", none), inboundName := "x",
    outboundName := "dup", supportingColumns := [] }

/-- Loader serving the duplicate-outbound schema for event `ev`. -/
def cfgDup : SchemaConfigLoader :=
  { getColumns := fun e => if e = "ev" then some [colDupA, colDupB] else none,
    getVersion := fun _ => 1 }

/-- A decodable event for the schema of `cfgDup`. -/
def eventDup : MixpanelEvent :=
  { event := "ev", properties := "\x7b\"x\":null\x7d", decoded := some [("x", JVal.jnull)],
    uuid := "u2", clientIP := "", userAgent := "", eventTime := "7",
    edgeType := "internal", pstart := 0, failure := Failure.None }

/-- Counterexample for C1 as stated: with two column specs sharing the
outbound name `dup`, the first column formats to the non-empty value `a`
yet the pair (dup, a) is not in the returned record map - the Go map write
of the second column overwrote it with `b`. -/
theorem transform_record_duplicate_outbound_counterexample :
    (transform cfgDup eventDup).2.1 "dup" = some "b" ∧
    (colDupA.Format (injectServerFields eventDup (assocToMap [("x", JVal.jnull)]))).2.1 = "a" ∧
    colDupA.outboundName = "dup" ∧
    ¬ ((transform cfgDup eventDup).2.1 "dup" = some "a") := by
  refine ⟨rfl, rfl, rfl, by decide⟩

/-- Claim C3 (amended): when the first argument does not parse as an int64,
the trimmed login misses both caches, and the fetcher returns the rate-limit
error `lookup.ErrTooManyRequests`, the transformer returns the empty value
with `ErrFetchFailure` - not `ErrTooManyRequests` - so the per-column
outcome is counted as `cache.fetch_failure` (and as a skipped column), never
as `tooManyFetchRequests`; neither the local nor the remote cache is written
for that login. -/
theorem loginToID_rate_limit_fetch_failure
    (localCache remoteCache : List (String × String))
    (fetch : String → FetchRes) (remoteSetOk : String → String → Bool)
    (a0 : Option JVal) (rawLogin : String)
    (hparse : safeParseInt a0 = none)
    (hne : ¬ (goTrimSpace rawLogin).length = 0)
    (hlocal : cacheGet localCache (goTrimSpace rawLogin) = none)
    (hremote : cacheGet remoteCache (goTrimSpace rawLogin) = none)
    (hfetch : fetch (goTrimSpace rawLogin) = FetchRes.errTooMany) :
    loginToIDTransformer localCache remoteCache fetch remoteSetOk
        [a0, some (JVal.str rawLogin)]
      = (("", some TErr.fetchFailure), localCache, remoteCache) ∧
    classify (some TErr.fetchFailure) = (["cache.fetch_failure"], true) ∧
    classify (some TErr.tooManyRequests) = (["tooManyFetchRequests"], true) := by
  refine ⟨?_, rfl, rfl⟩
  unfold loginToIDTransformer
  dsimp only
  rw [hparse]
  dsimp only
  rw [if_neg hne, hlocal, hremote, hfetch]

/-- A fetcher that always reports the rate-limit error. -/
def fetchTooMany : String → FetchRes := fun _ => FetchRes.errTooMany

/-- A remote cache that accepts every write. -/
def remoteSetAlwaysOk : String → String → Bool := fun _ _ => true

/-- Witness for C3 at concrete caches, fetcher and arguments. -/
theorem loginToID_rate_limit_fetch_failure_witness :
    loginToIDTransformer [] [] fetchTooMany remoteSetAlwaysOk
        [some (JVal.str "abc"), some (JVal.str "bob")]
      = (("", some TErr.fetchFailure), [], []) :=
  (loginToID_rate_limit_fetch_failure [] [] fetchTooMany remoteSetAlwaysOk
    (some (JVal.str "abc")) "bob" rfl (by decide) rfl rfl rfl).1

/-- Counterexample for C3 as stated: on a rate-limited fetch with both
caches missing, the column error is `ErrFetchFailure`, which the transform
outcome switch counts as `cache.fetch_failure`, not as
`tooManyFetchRequests`. -/
theorem loginToID_rate_limit_counterexample :
    (loginToIDTransformer [] [] (fun _ => FetchRes.errTooMany) (fun _ _ => true)
        [some (JVal.str "xyz"), some (JVal.str "carol")]).1.2
      = some TErr.fetchFailure ∧
    ¬ (some TErr.fetchFailure = some TErr.tooManyRequests) ∧
    classify (some TErr.fetchFailure) = (["cache.fetch_failure"], true) := by
  refine ⟨rfl, by decide, rfl⟩

/-- Claim C5 (amended): the unix timestamp formatter fails exactly when its
single argument is not a decoded JSON number (or its literal does not parse
as a decimal float) or the TRUNCATED seconds of its value lie outside the
inclusive window [timeLowerBound, fiveDigitYearCutoff] = [1e9, 1.314e10];
within the window it formats the instant with whole seconds `trunc(value)`
and nanoseconds `trunc((value - seconds) * 1e9)` through the external
America/Los_Angeles formatter with layout 2006-01-02 15:04:05.999. Because
the bound is checked on the truncated seconds, a fractional value just above
1.314e10 (for example 1.314e10 + 0.5) is accepted even though the value
itself exceeds the upper bound of the claimed window. -/
theorem genUnixTimeFormat_characterization (formatInTz : Int → Int → String)
    (arg : Option JVal) :
    ((genUnixTimeFormat formatInTz arg).2 = none ↔
      ∃ s q, arg = some (JVal.num s) ∧ goParseFloat s = some q ∧
        timeLowerBound ≤ ratTrunc q ∧ ratTrunc q ≤ fiveDigitYearCutoff) ∧
    (∀ s q, arg = some (JVal.num s) → goParseFloat s = some q →
      timeLowerBound ≤ ratTrunc q → ratTrunc q ≤ fiveDigitYearCutoff →
      genUnixTimeFormat formatInTz arg
        = (formatInTz (ratTrunc q) (fracNanos q (ratTrunc q)), none)) := by
  have hok : ∀ s q, goParseFloat s = some q →
      timeLowerBound ≤ ratTrunc q → ratTrunc q ≤ fiveDigitYearCutoff →
      genUnixTimeFormat formatInTz (some (JVal.num s))
        = (formatInTz (ratTrunc q) (fracNanos q (ratTrunc q)), none) := by
    intro s q hq h1 h2
    simp only [genUnixTimeFormat, hq]
    rw [if_neg (by omega)]
  constructor
  · constructor
    · intro h
      cases arg with
      | none => exact absurd h (by simp [genUnixTimeFormat])
      | some v =>
          cases v with
          | num s =>
              cases hq : goParseFloat s with
              | none => simp [genUnixTimeFormat, hq] at h
              | some q =>
                  refine ⟨s, q, rfl, hq, ?_⟩
                  by_cases hc : ratTrunc q < timeLowerBound ∨ ratTrunc q > fiveDigitYearCutoff
                  · exfalso
                    simp [genUnixTimeFormat, hq, hc] at h
                  · omega
          | str s => exact absurd h (by simp [genUnixTimeFormat])
          | jbool b => exact absurd h (by simp [genUnixTimeFormat])
          | jnull => exact absurd h (by simp [genUnixTimeFormat])
          | composite => exact absurd h (by simp [genUnixTimeFormat])
    · rintro ⟨s, q, rfl, hq, h1, h2⟩
      rw [hok s q hq h1 h2]
  · intro s q hs hq h1 h2
    rw [hs, hok s q hq h1 h2]

/-- A concrete stand-in for the external timezone formatter. -/
def timeFmtDemo : Int → Int → String :=
  fun s n => toString s ++ ":" ++ toString n

/-- Witness for C5: a whole-second value inside the window formats through
the timezone formatter with zero nanoseconds. -/
theorem genUnixTimeFormat_characterization_witness :
    genUnixTimeFormat timeFmtDemo (some (JVal.num "2000000000"))
      = (timeFmtDemo 2000000000 0, none) :=
  (genUnixTimeFormat_characterization timeFmtDemo (some (JVal.num "2000000000"))).2
    "2000000000" (mkRat 2000000000 1) rfl (by decide) (by decide) (by decide)

/-- Counterexample for C5 as stated: the value 13140000000.5 exceeds the
claimed inclusive upper bound 1.314e10, so the claim says the formatter must
fail, but the source truncates to 13140000000 seconds before the bound check
and succeeds, emitting the instant with 500000000 nanoseconds. -/
theorem genUnixTimeFormat_fractional_cutoff_counterexample :
    goParseFloat "13140000000.5" = some (mkRat 26280000001 2) ∧
    (13140000000 : ℚ) < mkRat 26280000001 2 ∧
    genUnixTimeFormat timeFmtDemo (some (JVal.num "13140000000.5"))
      = (timeFmtDemo 13140000000 500000000, none) := by
  exact ⟨by decide, by decide, by decide⟩

/-- A string of byte length zero is the empty string. -/
theorem str_eq_empty_of_length (s : String) (h : s.length = 0) : s = "" := by
  cases s with
  | mk data =>
      cases data with
      | nil => rfl
      | cons c cs => simp [String.length] at h

/-- Globber.add emits nothing exactly when it does not have to close a
non-empty buffer; in that case, on a non-empty buffer, it appends one comma
and the entry. -/
theorem globAdd_no_emit (compress : String → String) (maxSize : Nat)
    (st e : String) (hst : ¬ st.length = 0)
    (hem : (globAdd compress maxSize st e).2 = []) :
    globAdd compress maxSize st e = (st ++ "," ++ e, []) := by
  unfold globAdd at hem ⊢
  dsimp only at hem ⊢
  by_cases hsz : e.length + st.length > maxSize
  · rw [if_pos hsz] at hem
    unfold globComplete at hem
    rw [if_neg hst] at hem
    simp at hem
  · rw [if_neg hsz] at hem ⊢
    dsimp only at hem ⊢
    rw [if_neg hst]

/-- Globber.add on an empty buffer opens it with `[` and never emits. -/
theorem globAdd_empty (compress : String → String) (maxSize : Nat) (e : String) :
    globAdd compress maxSize "" e = ("[" ++ e, []) := by
  have hc : globComplete compress "" = ("", []) := by
    unfold globComplete
    rw [if_pos (show "".length = 0 from rfl)]
  unfold globAdd
  dsimp only
  by_cases hsz : e.length + "".length > maxSize
  · rw [if_pos hsz, hc]
    dsimp only
    rw [if_pos (show "".length = 0 from rfl), String.empty_append]
  · rw [if_neg hsz]
    dsimp only
    rw [if_pos (show "".length = 0 from rfl), String.empty_append]

/-- A run of adds that emits nothing extends a non-empty buffer by one comma
and one entry per element, in order. -/
theorem globRun_no_emit (compress : String → String) (maxSize : Nat) :
    ∀ (es : List String) (st : String), ¬ st.length = 0 →
      (globRun compress maxSize es st).2 = [] →
      (globRun compress maxSize es st).1 = st ++ commaTail es := by
  intro es
  induction es with
  | nil =>
      intro st hst hemit
      simp [globRun, commaTail, String.append_empty]
  | cons e rest ih =>
      intro st hst hemit
      unfold globRun at hemit ⊢
      dsimp only at hemit ⊢
      have hp := List.append_eq_nil.mp hemit
      have hadd := globAdd_no_emit compress maxSize st e hst hp.1
      rw [hadd] at hp ⊢
      dsimp only at hp ⊢
      have hlen : ¬ (st ++ "," ++ e).length = 0 := by
        simp only [String.length_append]
        intro hcon
        exact hst (by omega)
      rw [ih (st ++ "," ++ e) hlen hp.2]
      simp [commaTail, String.append_assoc]

/-- Claim C2: submitting a non-empty sequence of entries to a Globber, none
of which triggers a size-based close (no glob is emitted during the adds),
followed by Close, emits exactly one glob: a single version byte 1 followed
by the compressed JSON array of the entries in submission order; inverting
the compressor recovers exactly `[e1,e2,...,eN]`. -/
theorem globber_roundtrip (compress inflate : String → String) (maxSize : Nat)
    (entries : List String)
    (hinv : ∀ s, inflate (compress s) = s)
    (hne : ¬ entries = [])
    (hnosplit : (globRun compress maxSize entries "").2 = []) :
    globberRun compress maxSize entries
      = [String.singleton (Char.ofNat 1) ++ compress ("[" ++ commaJoin entries ++ "]")] ∧
    inflate (compress ("[" ++ commaJoin entries ++ "]"))
      = "[" ++ commaJoin entries ++ "]" := by
  refine ⟨?_, hinv _⟩
  cases entries with
  | nil => exact absurd rfl hne
  | cons e es =>
      unfold globberRun
      dsimp only
      unfold globRun at hnosplit ⊢
      dsimp only at hnosplit ⊢
      rw [globAdd_empty compress maxSize e] at hnosplit ⊢
      dsimp only at hnosplit ⊢
      rw [List.nil_append] at hnosplit ⊢
      have hlen : ¬ ("[" ++ e).length = 0 := by
        simp only [String.length_append]
        have h1 : "[".length = 1 := rfl
        omega
      rw [globRun_no_emit compress maxSize es ("[" ++ e) hlen hnosplit]
      rw [hnosplit, List.nil_append]
      unfold globComplete
      rw [if_neg (show ¬ ("[" ++ e ++ commaTail es).length = 0 from by
        simp only [String.length_append]
        have h1 : "[".length = 1 := rfl
        omega)]
      rw [commaJoin_cons]
      simp [String.append_assoc]

/-- An identity compressor (with itself as inverse), for concrete runs. -/
def strEcho : String → String := fun s => s

/-- Witness for C2: two small JSON entries globbed with the identity
compressor produce exactly one glob with the version byte and the two-entry
array body. -/
theorem globber_roundtrip_witness :
    globberRun strEcho 100 ["\x7b\"a\":1\x7d", "\x7b\"a\":2\x7d"]
      = [String.singleton (Char.ofNat 1)
          ++ strEcho ("[" ++ commaJoin ["\x7b\"a\":1\x7d", "\x7b\"a\":2\x7d"] ++ "]")] ∧
    strEcho ("[" ++ commaJoin ["\x7b\"a\":1\x7d", "\x7b\"a\":2\x7d"] ++ "]")
      = "[" ++ commaJoin ["\x7b\"a\":1\x7d", "\x7b\"a\":2\x7d"] ++ "]" :=
  globber_roundtrip strEcho strEcho 100 ["\x7b\"a\":1\x7d", "\x7b\"a\":2\x7d"]
    (fun _ => rfl) (by decide) (by decide)

/-- Every batch coming out of Batcher.complete is non-empty. -/
theorem batchComplete_ne (p : List String × Nat) :
    ∀ b ∈ (batchComplete p).2, ¬ b = [] := by
  intro b hb
  unfold batchComplete at hb
  by_cases he : p.1.isEmpty
  · rw [if_pos he] at hb
    exact absurd hb (List.not_mem_nil b)
  · rw [if_neg he] at hb
    simp only [List.mem_singleton] at hb
    subst hb
    intro hnil
    exact he (by rw [hnil]; rfl)

/-- Every batch coming out of Batcher.add is non-empty. -/
theorem batchAdd_ne (maxSize : Nat) (p : List String × Nat) (e : String) :
    ∀ b ∈ (batchAdd maxSize p e).2, ¬ b = [] := by
  intro b hb
  unfold batchAdd at hb
  dsimp only at hb
  by_cases hsz : e.length + p.2 > maxSize
  · rw [if_pos hsz] at hb
    exact batchComplete_ne p b hb
  · rw [if_neg hsz] at hb
    exact absurd hb (List.not_mem_nil b)

/-- Every batch the worker loop hands out is non-empty. -/
theorem batchOpsRun_ne (maxSize : Nat) :
    ∀ (ops : List AggOp) (p : List String × Nat) (b : List String),
      b ∈ (batchOpsRun maxSize ops p).2 → ¬ b = [] := by
  intro ops
  induction ops with
  | nil =>
      intro p b hb
      exact absurd hb (List.not_mem_nil b)
  | cons op rest ih =>
      intro p b hb
      cases op with
      | submit e =>
          unfold batchOpsRun at hb
          dsimp only at hb
          rcases List.mem_append.mp hb with h1 | h2
          · exact batchAdd_ne maxSize p e b h1
          · exact ih _ b h2
      | fire =>
          unfold batchOpsRun at hb
          dsimp only at hb
          rcases List.mem_append.mp hb with h1 | h2
          · exact batchComplete_ne p b h1
          · exact ih _ b h2

/-- The Globber pending-buffer invariant relative to a set `S` of allowed
entries: the buffer is empty, or it is `[` followed by the comma-join of a
non-empty list of entries from `S`. -/
def GlobInv (S : String → Prop) (st : String) : Prop :=
  st.length = 0 ∨ ∃ es, ¬ es = [] ∧ (∀ e ∈ es, S e) ∧ st = "[" ++ commaJoin es

/-- A well-formed emitted glob: version byte then the compressed array body
of a non-empty list of entries from `S`. -/
def GoodGlob (compress : String → String) (S : String → Prop) (g : String) : Prop :=
  ∃ es, ¬ es = [] ∧ (∀ e ∈ es, S e) ∧
    g = String.singleton (Char.ofNat 1) ++ compress ("[" ++ commaJoin es ++ "]")

theorem commaJoin_snoc (e : String) :
    ∀ es, ¬ es = [] → commaJoin (es ++ [e]) = commaJoin es ++ "," ++ e := by
  intro es
  induction es with
  | nil => intro h; exact absurd rfl h
  | cons a t ih =>
      intro _
      cases t with
      | nil => simp [commaJoin, String.append_assoc]
      | cons b t2 =>
          have ih2 := ih (by simp)
          calc commaJoin ((a :: b :: t2) ++ [e])
              = a ++ "," ++ commaJoin ((b :: t2) ++ [e]) := rfl
            _ = a ++ "," ++ (commaJoin (b :: t2) ++ "," ++ e) := by rw [ih2]
            _ = commaJoin (a :: b :: t2) ++ "," ++ e := by
                  simp [commaJoin, String.append_assoc]

/-- Globber.complete preserves the buffer invariant and only emits
well-formed globs. -/
theorem globComplete_inv (compress : String → String) (S : String → Prop)
    (st : String) (h : GlobInv S st) :
    GlobInv S (globComplete compress st).1 ∧
    ∀ g ∈ (globComplete compress st).2, GoodGlob compress S g := by
  unfold globComplete
  by_cases hl : st.length = 0
  · rw [if_pos hl]
    exact ⟨h, by simp⟩
  · rw [if_neg hl]
    refine ⟨Or.inl rfl, ?_⟩
    intro g hg
    rcases h with h0 | ⟨es, hne, hS, hst⟩
    · exact absurd h0 hl
    · simp only [List.mem_singleton] at hg
      subst hg
      exact ⟨es, hne, hS, by rw [hst]; try simp [String.append_assoc]⟩

/-- Globber.add preserves the buffer invariant (given the entry is allowed)
and only emits well-formed globs. -/
theorem globAdd_inv (compress : String → String) (maxSize : Nat)
    (S : String → Prop) (st e : String) (hSe : S e) (h : GlobInv S st) :
    GlobInv S (globAdd compress maxSize st e).1 ∧
    ∀ g ∈ (globAdd compress maxSize st e).2, GoodGlob compress S g := by
  unfold globAdd
  dsimp only
  have hgrow : ∀ (p : String), GlobInv S p →
      GlobInv S (if p.length = 0 then p ++ "[" ++ e else p ++ "," ++ e) := by
    intro p hp
    by_cases hl : p.length = 0
    · rw [if_pos hl, str_eq_empty_of_length p hl, String.empty_append]
      exact Or.inr ⟨[e], by simp, by simpa using hSe, rfl⟩
    · rw [if_neg hl]
      rcases hp with h0 | ⟨es, hne, hS, hst⟩
      · exact absurd h0 hl
      · refine Or.inr ⟨es ++ [e], by simp, ?_, ?_⟩
        · intro x hx
          rcases List.mem_append.mp hx with h1 | h2
          · exact hS x h1
          · rw [List.mem_singleton.mp h2]
            exact hSe
        · rw [hst, commaJoin_snoc e es hne]
          simp [String.append_assoc]
  by_cases hsz : e.length + st.length > maxSize
  · rw [if_pos hsz]
    have hc := globComplete_inv compress S st h
    by_cases hl : (globComplete compress st).1.length = 0
    · rw [if_pos hl]
      exact ⟨by simpa [if_pos hl] using hgrow _ hc.1, hc.2⟩
    · rw [if_neg hl]
      exact ⟨by simpa [if_neg hl] using hgrow _ hc.1, hc.2⟩
  · rw [if_neg hsz]
    dsimp only
    by_cases hl : st.length = 0
    · rw [if_pos hl]
      exact ⟨by simpa [if_pos hl] using hgrow st h, by simp⟩
    · rw [if_neg hl]
      exact ⟨by simpa [if_neg hl] using hgrow st h, by simp⟩

/-- The Globber worker loop preserves the invariant and only hands
well-formed globs to the completor. -/
theorem globOpsRun_inv (compress : String → String) (maxSize : Nat)
    (S : String → Prop) :
    ∀ (ops : List AggOp) (st : String),
      (∀ e, AggOp.submit e ∈ ops → S e) → GlobInv S st →
      GlobInv S (globOpsRun compress maxSize ops st).1 ∧
      ∀ g ∈ (globOpsRun compress maxSize ops st).2, GoodGlob compress S g := by
  intro ops
  induction ops with
  | nil =>
      intro st hs h
      exact ⟨h, by simp [globOpsRun]⟩
  | cons op rest ih =>
      intro st hs h
      cases op with
      | submit e =>
          have hSe : S e := hs e (List.mem_cons_self _ _)
          have ha := globAdd_inv compress maxSize S st e hSe h
          have hr := ih (globAdd compress maxSize st e).1
            (fun e2 he2 => hs e2 (List.mem_cons_of_mem _ he2)) ha.1
          unfold globOpsRun
          dsimp only
          refine ⟨hr.1, ?_⟩
          intro g hg
          rcases List.mem_append.mp hg with h1 | h2
          · exact ha.2 g h1
          · exact hr.2 g h2
      | fire =>
          have ha := globComplete_inv compress S st h
          have hr := ih (globComplete compress st).1
            (fun e2 he2 => hs e2 (List.mem_cons_of_mem _ he2)) ha.1
          unfold globOpsRun
          dsimp only
          refine ⟨hr.1, ?_⟩
          intro g hg
          rcases List.mem_append.mp hg with h1 | h2
          · exact ha.2 g h1
          · exact hr.2 g h2

/-- Claim C6: for every sequence of submissions, timer expiries and the
final Close flush, every batch the Batcher hands to its completor is a
non-empty list of entries, and every glob the Globber hands to its completor
is the version byte followed by the compressed JSON array of a non-empty
list of submitted entries - neither component ever completes an empty
pending aggregate. -/
theorem aggregates_never_empty (compress : String → String) (maxB maxG : Nat)
    (opsB opsG : List AggOp) :
    (∀ b ∈ batcherOpsEmitted maxB opsB, ¬ b = []) ∧
    (∀ g ∈ globberOpsEmitted compress maxG opsG,
      ∃ es, ¬ es = [] ∧ (∀ e ∈ es, AggOp.submit e ∈ opsG) ∧
        g = String.singleton (Char.ofNat 1) ++ compress ("[" ++ commaJoin es ++ "]")) := by
  constructor
  · intro b hb
    unfold batcherOpsEmitted at hb
    dsimp only at hb
    rcases List.mem_append.mp hb with h1 | h2
    · exact batchOpsRun_ne maxB opsB ([], 0) b h1
    · exact batchComplete_ne _ b h2
  · intro g hg
    unfold globberOpsEmitted at hg
    dsimp only at hg
    have hrun := globOpsRun_inv compress maxG (fun e => AggOp.submit e ∈ opsG)
      opsG "" (fun e he => he) (Or.inl rfl)
    have hcl := globComplete_inv compress (fun e => AggOp.submit e ∈ opsG)
      (globOpsRun compress maxG opsG "").1 hrun.1
    rcases List.mem_append.mp hg with h1 | h2
    · exact hrun.2 g h1
    · exact hcl.2 g h2

/-- Witness for C6: one submission plus Close on each component; the batch
is the non-empty singleton and the glob carries the one-entry array. -/
theorem aggregates_never_empty_witness :
    ¬ (["x"] : List String) = [] ∧
    (∃ es, ¬ es = [] ∧ (∀ e ∈ es, AggOp.submit e ∈ [AggOp.submit "y"]) ∧
      String.singleton (Char.ofNat 1) ++ "[y]"
        = String.singleton (Char.ofNat 1) ++ strEcho ("[" ++ commaJoin es ++ "]")) :=
  ⟨(aggregates_never_empty strEcho 10 10 [AggOp.submit "x"] [AggOp.submit "y"]).1
      ["x"] (by decide),
   (aggregates_never_empty strEcho 10 10 [AggOp.submit "x"] [AggOp.submit "y"]).2
      (String.singleton (Char.ofNat 1) ++ "[y]") (by decide)⟩
